import Mathlib

/-!
Verification of the lockfile validator in `src/main.rs` of `rust-pkg-lint`.

The program parses a `package-lock.json` document with `serde_json` and
checks, for each entry of its `packages` object, that the entry carries
`integrity` and `resolved` fields.  We embed `serde_json::Value` as an
inductive `Value`, the panic-free `ops::Index<&str>` as `Value.index`
(returning `Value.null` when the key is missing or the receiver is not an
object, exactly as `serde_json` documents), and `validate_json` as a Lean
function translated line by line from the Rust source.
-/

/-- A JSON value, mirroring `serde_json::Value`.  Numbers are carried as
rationals: no claim inspects numeric contents, only the tag matters. -/
inductive Value where
  | null : Value
  | bool (b : Bool) : Value
  | num (q : Rat) : Value
  | str (s : String) : Value
  | arr (xs : List Value) : Value
  | obj (fields : List (String × Value)) : Value

namespace Value

/-- Equality with `Value::Null` is decidable by looking at the tag
(`serde_json`'s `PartialEq` specialised to the comparisons the source makes). -/
instance decEqNull : (v : Value) → Decidable (v = Value.null)
  | .null => isTrue rfl
  | .bool _ => isFalse (fun h => Value.noConfusion h)
  | .num _ => isFalse (fun h => Value.noConfusion h)
  | .str _ => isFalse (fun h => Value.noConfusion h)
  | .arr _ => isFalse (fun h => Value.noConfusion h)
  | .obj _ => isFalse (fun h => Value.noConfusion h)

/-- Equality with `Value::Bool(b)` is decidable by looking at the tag. -/
instance decEqBool (v : Value) (b : Bool) : Decidable (v = Value.bool b) :=
  match v with
  | .null => isFalse (fun h => Value.noConfusion h)
  | .bool c => decidable_of_iff (c = b) (by simp)
  | .num _ => isFalse (fun h => Value.noConfusion h)
  | .str _ => isFalse (fun h => Value.noConfusion h)
  | .arr _ => isFalse (fun h => Value.noConfusion h)
  | .obj _ => isFalse (fun h => Value.noConfusion h)

/-- `json["key"]` on an immutable `serde_json::Value`: looks the key up in
an object and returns `Value::Null` when the key is absent or the receiver
is not an object (`serde_json`'s `ops::Index` impl; it never panics). -/
def index (v : Value) (key : String) : Value :=
  match v with
  | .obj fields =>
    match fields.lookup key with
    | some x => x
    | none => .null
  | _ => .null

/-- `Value::as_object`: `Some` of the field list exactly on objects. -/
def asObject : Value → Option (List (String × Value))
  | .obj fields => some fields
  | _ => none

/-- `Value::as_str`: `Some` of the string exactly on strings. -/
def asStr : Value → Option String
  | .str s => some s
  | _ => none

end Value

/-- Rust `str::starts_with(pat)` for a string pattern: the pattern is a
prefix of the receiver.  Modelled on the character lists; for valid UTF-8
(which Rust `str` guarantees) a byte-level prefix of a whole pattern string
and a character-level prefix coincide. -/
def strStartsWith (s pat : String) : Bool :=
  List.isPrefixOf pat.data s.data

/-- The body of the `filter_map` closure in `validate_json`
(src/main.rs lines 24-47): decides whether the entry `(k, v)` of the
`packages` object is reported, returning `some k` exactly when it is. -/
def check_entry (k : String) (v : Value) : Option String :=
  -- empty string is self
  if k.isEmpty then none
  -- if it's not a node module, then it's possible a workspace
  else if !(strStartsWith k "node_modules") then none
  -- symlink is fine
  else if v.index "link" = Value.bool true then none
  -- missing integrity / missing resolved
  else if v.index "integrity" = Value.null ∨ v.index "resolved" = Value.null then some k
  else none

/-- `validate_json` (src/main.rs lines 17-53): the `packages` field of the
root value is taken as an object; each of its entries goes through
`check_entry`.  When `packages` is absent or not an object the
`or_else(|| Some(Vec::new()))` branch yields the empty list. -/
def validate_json (json : Value) : List String :=
  match (json.index "packages").asObject with
  | some packages => packages.filterMap (fun kv => check_entry kv.1 kv.2)
  | none => []

/-- The `Option` pipeline of `validate_json` before the final `.unwrap()`
(src/main.rs lines 18-51): `as_object().and_then(...).or_else(|| Some(vec![]))`.
`none` here would mean the `unwrap` on line 52 panics. -/
def validate_json_opt (json : Value) : Option (List String) :=
  (((json.index "packages").asObject).bind (fun packages =>
      some (packages.filterMap (fun kv => check_entry kv.1 kv.2)))).orElse
    (fun _ => some [])

/-- Result of one process run: the exit status (`true` for
`ExitCode::SUCCESS`, `false` for `ExitCode::FAILURE`) and the lines printed
to standard output, in order. -/
structure ProcResult where
  exitSuccess : Bool
  output : List String
deriving DecidableEq

/-- The header line printed when violations exist (src/main.rs lines 83-90):
it carries the document's `name` field when `v["name"].as_str()` is `Some`. -/
def report_header (v : Value) : String :=
  match (v.index "name").asStr with
  | some name =>
    "[ERROR] [" ++ name ++
      "] package-lock.json is missing the following resolved/integrity fields:"
  | none =>
    "[ERROR] package-lock.json is missing the following resolved/integrity fields:"

/-- Unix `Path::new(dir).join(file)` followed by `Display`, as used in the
read-error message of `main`: `join` inserts a separator unless `dir` is
empty or already ends with one. -/
def pathJoin (dir file : String) : String :=
  if dir.isEmpty then file
  else if dir.data.getLast? = some '/' then dir ++ file
  else dir ++ "/" ++ file

/-- `main` (src/main.rs lines 55-100) after command-line parsing: `cwd` is
the chosen directory, `readResult` stands for the outcome of
`read_package_lock(cwd)` and `parse` for `parse_json` /
`serde_json::from_str` (its `Except.error` carries the parser's message
`e`, printed as `[ERROR] {e}`). -/
def main_model (cwd : String) (readResult : Except Unit String)
    (parse : String → Except String Value) : ProcResult :=
  match readResult with
  | .error _ =>
    ⟨false, ["[ERROR] Could not read package-lock.json at " ++
      pathJoin cwd "package-lock.json"]⟩
  | .ok data =>
    match parse data with
    | .error e => ⟨false, ["[ERROR] " ++ e]⟩
    | .ok v =>
      let missing := validate_json v
      if missing.length > 0 then
        ⟨false, report_header v :: missing.map (fun m => "    " ++ m)⟩
      else
        ⟨true, []⟩

/-! ### Helper lemmas -/

/-- Characterisation of the `filter_map` closure: it yields `some s`
exactly when `s` is the key and the key passes all three guards while
`integrity` or `resolved` indexes to `Null`. -/
theorem check_entry_eq_some {k : String} {v : Value} {s : String} :
    check_entry k v = some s ↔
      (s = k ∧ k.isEmpty = false ∧ strStartsWith k "node_modules" = true ∧
        v.index "link" ≠ Value.bool true ∧
        (v.index "integrity" = Value.null ∨ v.index "resolved" = Value.null)) := by
  unfold check_entry
  split_ifs with h1 h2 h3 h4 <;> simp_all
  exact comm

/-- Membership in the validator's output, for a document whose `packages`
field is the object `packages`. -/
theorem mem_validate_json {json : Value} {packages : List (String × Value)}
    (hp : (json.index "packages").asObject = some packages) {s : String} :
    s ∈ validate_json json ↔ ∃ v, (s, v) ∈ packages ∧ check_entry s v = some s := by
  unfold validate_json
  rw [hp]
  simp only [List.mem_filterMap]
  constructor
  · rintro ⟨⟨k, v⟩, hmem, hck⟩
    obtain ⟨rfl, -⟩ := check_entry_eq_some.mp hck
    exact ⟨v, hmem, hck⟩
  · rintro ⟨v, hmem, hck⟩
    exact ⟨(s, v), hmem, hck⟩

/-- In an association list with pairwise-distinct keys (as `serde_json`'s
map guarantees), a key determines its value. -/
theorem assoc_keys_nodup_inj {l : List (String × Value)}
    (hnd : (l.map Prod.fst).Nodup) {k : String} {a b : Value}
    (ha : (k, a) ∈ l) (hb : (k, b) ∈ l) : a = b := by
  induction l with
  | nil => cases ha
  | cons hd tl ih =>
    rw [List.map_cons, List.nodup_cons] at hnd
    rcases List.mem_cons.mp ha with h1 | h1
    · rcases List.mem_cons.mp hb with h2 | h2
      · exact congrArg Prod.snd (h1.trans h2.symm)
      · rw [← h1] at hnd
        exact absurd (List.mem_map_of_mem Prod.fst h2) hnd.1
    · rcases List.mem_cons.mp hb with h2 | h2
      · rw [← h2] at hnd
        exact absurd (List.mem_map_of_mem Prod.fst h1) hnd.1
      · exact ih hnd.2 h1 h2

/-- The filtered keys form a sublist of the key sequence: `check_entry`
returns, when anything, the entry's own key. -/
theorem filterMap_check_sublist (l : List (String × Value)) :
    (l.filterMap (fun kv => check_entry kv.1 kv.2)).Sublist (l.map Prod.fst) := by
  induction l with
  | nil => simp
  | cons hd tl ih =>
    rw [List.filterMap_cons, List.map_cons]
    cases hck : check_entry hd.1 hd.2 with
    | none => exact ih.cons _
    | some s =>
      obtain ⟨rfl, -⟩ := check_entry_eq_some.mp hck
      exact ih.cons₂ _

/-- Indexing a non-object value with any key yields `Null`
(`serde_json`'s `ops::Index` never panics). -/
theorem index_of_non_object {v : Value} (hobj : v.asObject = none) (key : String) :
    v.index key = Value.null := by
  cases v <;> simp_all [Value.asObject, Value.index]

/-! ### Claim theorems -/

/-- C1: for a parsed document whose `packages` field is an object, a key of
that object is in the validator's output iff the key is non-empty, starts
with `node_modules`, its entry's `link` field is not exactly boolean true,
and `integrity` or `resolved` is absent or null (both conditions index to
`Null`). -/
theorem C1_violation_iff (json : Value) (packages : List (String × Value))
    (hp : (json.index "packages").asObject = some packages)
    (hnd : (packages.map Prod.fst).Nodup)
    (k : String) (v : Value) (hkv : (k, v) ∈ packages) :
    k ∈ validate_json json ↔
      (k ≠ "" ∧ strStartsWith k "node_modules" = true ∧
        v.index "link" ≠ Value.bool true ∧
        (v.index "integrity" = Value.null ∨ v.index "resolved" = Value.null)) := by
  rw [mem_validate_json hp]
  constructor
  · rintro ⟨v', hv', hck⟩
    obtain rfl : v' = v := assoc_keys_nodup_inj hnd hv' hkv
    obtain ⟨-, hne, hpre, hlink, hmiss⟩ := check_entry_eq_some.mp hck
    refine ⟨?_, hpre, hlink, hmiss⟩
    intro hk
    rw [hk] at hne
    exact absurd hne (by decide)
  · rintro ⟨hne, hpre, hlink, hmiss⟩
    refine ⟨v, hkv, check_entry_eq_some.mpr ⟨rfl, ?_, hpre, hlink, hmiss⟩⟩
    cases he : k.isEmpty
    · rfl
    · exact absurd ((String.isEmpty_iff k).mp he) hne

/-- C1 witness: the document `{"packages": {"node_modules/foo":
{"resolved": "https://x"}}}` (missing `integrity`) reports
`node_modules/foo`. -/
theorem C1_violation_iff_witness :
    "node_modules/foo" ∈ validate_json (Value.obj [("packages",
      Value.obj [("node_modules/foo", Value.obj [("resolved", Value.str "https://x")])])]) :=
  (C1_violation_iff
    (Value.obj [("packages",
      Value.obj [("node_modules/foo", Value.obj [("resolved", Value.str "https://x")])])])
    [("node_modules/foo", Value.obj [("resolved", Value.str "https://x")])]
    rfl (by decide) "node_modules/foo" (Value.obj [("resolved", Value.str "https://x")])
    (List.mem_singleton.mpr rfl)).mpr
    ⟨by decide, by decide, by decide, Or.inl rfl⟩

/-- C3: only absence or explicit `null` of `integrity`/`resolved` flags an
entry; any other value, of whatever JSON type, makes the field count as
present, so the entry is not reported. -/
theorem C3_wrong_type_is_present (json : Value) (packages : List (String × Value))
    (hp : (json.index "packages").asObject = some packages)
    (hnd : (packages.map Prod.fst).Nodup)
    (k : String) (v : Value) (hkv : (k, v) ∈ packages)
    (hint : v.index "integrity" ≠ Value.null)
    (hres : v.index "resolved" ≠ Value.null) :
    k ∉ validate_json json := by
  rw [mem_validate_json hp]
  rintro ⟨v', hv', hck⟩
  obtain rfl : v' = v := assoc_keys_nodup_inj hnd hv' hkv
  obtain ⟨-, -, -, -, hmiss⟩ := check_entry_eq_some.mp hck
  rcases hmiss with h | h
  · exact hint h
  · exact hres h

/-- C3 witness: with `integrity` a number and `resolved` a boolean (both
wrong types), `node_modules/foo` is not reported. -/
theorem C3_wrong_type_is_present_witness :
    "node_modules/foo" ∉ validate_json (Value.obj [("packages",
      Value.obj [("node_modules/foo",
        Value.obj [("integrity", Value.num 42), ("resolved", Value.bool false)])])]) :=
  C3_wrong_type_is_present
    (Value.obj [("packages",
      Value.obj [("node_modules/foo",
        Value.obj [("integrity", Value.num 42), ("resolved", Value.bool false)])])])
    [("node_modules/foo",
      Value.obj [("integrity", Value.num 42), ("resolved", Value.bool false)])]
    rfl (by decide) "node_modules/foo"
    (Value.obj [("integrity", Value.num 42), ("resolved", Value.bool false)])
    (List.mem_singleton.mpr rfl) (by decide) (by decide)

/-- C4: when the root's `packages` field is absent or not an object
(including a non-object root), the validator returns the empty list. -/
theorem C4_no_packages_empty (json : Value)
    (hp : (json.index "packages").asObject = none) :
    validate_json json = [] := by
  unfold validate_json
  rw [hp]

/-- C4 witness: a root whose `packages` field is a string yields no
violations. -/
theorem C4_no_packages_empty_witness :
    validate_json (Value.obj [("packages", Value.str "not-an-object")]) = [] :=
  C4_no_packages_empty (Value.obj [("packages", Value.str "not-an-object")]) rfl

/-- C6: the validator is total: the `Option` pipeline before the final
`unwrap` always yields `some` of the returned list, so the `unwrap` never
panics and every input produces a list. -/
theorem C6_validator_total (json : Value) :
    validate_json_opt json = some (validate_json json) := by
  unfold validate_json_opt validate_json
  cases (json.index "packages").asObject <;> rfl

/-- C8: the empty key — the root project itself — is never reported,
whatever its entry holds and whatever the document looks like. -/
theorem C8_empty_key_exempt (json : Value) : "" ∉ validate_json json := by
  intro hmem
  unfold validate_json at hmem
  cases hobj : (json.index "packages").asObject with
  | none => rw [hobj] at hmem; cases hmem
  | some packages =>
    rw [hobj] at hmem
    obtain ⟨kv, -, hck⟩ := List.mem_filterMap.mp hmem
    obtain ⟨hk, hne, -⟩ := check_entry_eq_some.mp hck
    rw [← hk] at hne
    exact absurd hne (by decide)

/-- C8 witness: the empty key with a completely empty entry — no
`integrity`, `resolved` or `link` — is not reported. -/
theorem C8_empty_key_exempt_witness :
    "" ∉ validate_json (Value.obj [("packages", Value.obj [("", Value.obj [])])]) :=
  C8_empty_key_exempt (Value.obj [("packages", Value.obj [("", Value.obj [])])])

/-- C9: a key that does not start with `node_modules` (a workspace member)
is never reported, whatever its entry holds. -/
theorem C9_non_node_modules_exempt (json : Value) (k : String)
    (hpre : strStartsWith k "node_modules" = false) :
    k ∉ validate_json json := by
  intro hmem
  unfold validate_json at hmem
  cases hobj : (json.index "packages").asObject with
  | none => rw [hobj] at hmem; cases hmem
  | some packages =>
    rw [hobj] at hmem
    obtain ⟨kv, -, hck⟩ := List.mem_filterMap.mp hmem
    obtain ⟨hk, -, hpre', -⟩ := check_entry_eq_some.mp hck
    rw [← hk] at hpre'
    rw [hpre] at hpre'
    cases hpre'

/-- C9 witness: `workspace-a`, with no fields at all, is not reported. -/
theorem C9_non_node_modules_exempt_witness :
    "workspace-a" ∉ validate_json (Value.obj [("packages",
      Value.obj [("workspace-a", Value.obj [])])]) :=
  C9_non_node_modules_exempt
    (Value.obj [("packages", Value.obj [("workspace-a", Value.obj [])])])
    "workspace-a" (by decide)

/-- C7: an entry whose `link` field is exactly boolean `true` is never
reported, even with `integrity` and `resolved` absent; any other `link`
value (`false`, the string `"true"`, `null`, ...) does not exempt the
entry: if the other guards pass and a required field indexes to `Null`,
the key is reported. -/
theorem C7_link_exemption (json : Value) (packages : List (String × Value))
    (hp : (json.index "packages").asObject = some packages)
    (hnd : (packages.map Prod.fst).Nodup)
    (k : String) (v : Value) (hkv : (k, v) ∈ packages) :
    (v.index "link" = Value.bool true → k ∉ validate_json json)
    ∧ (v.index "link" ≠ Value.bool true → k.isEmpty = false →
        strStartsWith k "node_modules" = true →
        (v.index "integrity" = Value.null ∨ v.index "resolved" = Value.null) →
        k ∈ validate_json json) := by
  constructor
  · intro hlink hmem
    obtain ⟨v', hv', hck⟩ := (mem_validate_json hp).mp hmem
    obtain rfl : v' = v := assoc_keys_nodup_inj hnd hv' hkv
    obtain ⟨-, -, -, hlink', -⟩ := check_entry_eq_some.mp hck
    exact hlink' hlink
  · intro hlink hne hpre hmiss
    exact (mem_validate_json hp).mpr
      ⟨v, hkv, check_entry_eq_some.mpr ⟨rfl, hne, hpre, hlink, hmiss⟩⟩

/-- C7 witness: `node_modules/a` with `link: true` and nothing else is not
reported; `node_modules/b` with `link: false` and nothing else is. -/
theorem C7_link_exemption_witness :
    "node_modules/a" ∉ validate_json (Value.obj [("packages",
      Value.obj [("node_modules/a", Value.obj [("link", Value.bool true)])])])
    ∧ "node_modules/b" ∈ validate_json (Value.obj [("packages",
      Value.obj [("node_modules/b", Value.obj [("link", Value.bool false)])])]) :=
  ⟨(C7_link_exemption
      (Value.obj [("packages",
        Value.obj [("node_modules/a", Value.obj [("link", Value.bool true)])])])
      [("node_modules/a", Value.obj [("link", Value.bool true)])]
      rfl (by decide) "node_modules/a" (Value.obj [("link", Value.bool true)])
      (List.mem_singleton.mpr rfl)).1 rfl,
   (C7_link_exemption
      (Value.obj [("packages",
        Value.obj [("node_modules/b", Value.obj [("link", Value.bool false)])])])
      [("node_modules/b", Value.obj [("link", Value.bool false)])]
      rfl (by decide) "node_modules/b" (Value.obj [("link", Value.bool false)])
      (List.mem_singleton.mpr rfl)).2 (by decide) (by decide) (by decide)
      (Or.inl rfl)⟩

/-- C10: for a document whose `packages` field is an object with pairwise
distinct keys (as the JSON parser guarantees), every reported key is a key
of that object, no key is reported twice, and the report is a subsequence
of the object's keys in iteration order. -/
theorem C10_output_invariants (json : Value) (packages : List (String × Value))
    (hp : (json.index "packages").asObject = some packages)
    (hnd : (packages.map Prod.fst).Nodup) :
    (∀ s ∈ validate_json json, s ∈ packages.map Prod.fst)
    ∧ (validate_json json).Nodup
    ∧ (validate_json json).Sublist (packages.map Prod.fst) := by
  have hsub : (validate_json json).Sublist (packages.map Prod.fst) := by
    unfold validate_json
    rw [hp]
    exact filterMap_check_sublist packages
  exact ⟨fun s hs => hsub.subset hs, hsub.nodup hnd, hsub⟩

/-- C10 witness: on a two-entry `packages` object with one violation, the
output has no duplicates and is a subsequence of the key sequence. -/
theorem C10_output_invariants_witness :
    (validate_json (Value.obj [("packages",
      Value.obj [("node_modules/a", Value.obj []),
        ("node_modules/b", Value.obj [("link", Value.bool true)])])])).Nodup
    ∧ (validate_json (Value.obj [("packages",
      Value.obj [("node_modules/a", Value.obj []),
        ("node_modules/b", Value.obj [("link", Value.bool true)])])])).Sublist
        ["node_modules/a", "node_modules/b"] :=
  ⟨(C10_output_invariants
      (Value.obj [("packages",
        Value.obj [("node_modules/a", Value.obj []),
          ("node_modules/b", Value.obj [("link", Value.bool true)])])])
      [("node_modules/a", Value.obj []),
        ("node_modules/b", Value.obj [("link", Value.bool true)])]
      rfl (by decide)).2.1,
   (C10_output_invariants
      (Value.obj [("packages",
        Value.obj [("node_modules/a", Value.obj []),
          ("node_modules/b", Value.obj [("link", Value.bool true)])])])
      [("node_modules/a", Value.obj []),
        ("node_modules/b", Value.obj [("link", Value.bool true)])]
      rfl (by decide)).2.2⟩

/-- C2 counterexample: the entry `node_modules/foo` whose value is the
number `42` — not a JSON object at all — IS recorded as a violation: its
`link` lookup is not boolean true and its `integrity` lookup degrades to
`Null`, so the claim that such an entry is not flagged fails here. -/
theorem C2_counterexample :
    validate_json (Value.obj [("packages",
      Value.obj [("node_modules/foo", Value.num 42)])]) = ["node_modules/foo"] := by
  decide

/-- C2 amended: a wrong-typed `integrity`/`resolved`/`link` field inside an
entry object degrades to "not a violation trigger", and no malformed shape
makes the validator error; but an eligible entry (non-empty key with the
`node_modules` prefix) whose value is not a JSON object at all is recorded
as a violation, because its field lookups degrade to `Null`. -/
theorem C2_non_object_entry_flagged (json : Value) (packages : List (String × Value))
    (hp : (json.index "packages").asObject = some packages)
    (k : String) (v : Value) (hkv : (k, v) ∈ packages)
    (hne : k.isEmpty = false)
    (hpre : strStartsWith k "node_modules" = true)
    (hobj : v.asObject = none) :
    k ∈ validate_json json := by
  refine (mem_validate_json hp).mpr
    ⟨v, hkv, check_entry_eq_some.mpr ⟨rfl, hne, hpre, ?_, ?_⟩⟩
  · rw [index_of_non_object hobj]
    exact fun h => Value.noConfusion h
  · exact Or.inl (index_of_non_object hobj "integrity")

/-- C2 witness: the entry `node_modules/bar` whose value is the string
`"oops"` is reported. -/
theorem C2_non_object_entry_flagged_witness :
    "node_modules/bar" ∈ validate_json (Value.obj [("packages",
      Value.obj [("node_modules/bar", Value.str "oops")])]) :=
  C2_non_object_entry_flagged
    (Value.obj [("packages", Value.obj [("node_modules/bar", Value.str "oops")])])
    [("node_modules/bar", Value.str "oops")]
    rfl "node_modules/bar" (Value.str "oops")
    (List.mem_singleton.mpr rfl) (by decide) (by decide) rfl

/-- C5: the process exits successfully iff the file was read, parsed, and
the validator returned an empty list, and then nothing is printed; when
the validator returns violations the process prints the header (with the
document's `name` when it is a string) followed by each violating key on
its own indented line, and exits with failure. -/
theorem C5_process_contract (cwd : String) (readResult : Except Unit String)
    (parse : String → Except String Value) :
    ((main_model cwd readResult parse).exitSuccess = true ↔
        ∃ data v, readResult = Except.ok data ∧ parse data = Except.ok v ∧
          validate_json v = [])
    ∧ ((main_model cwd readResult parse).exitSuccess = true →
        (main_model cwd readResult parse).output = [])
    ∧ (∀ data v, readResult = Except.ok data → parse data = Except.ok v →
        validate_json v ≠ [] →
        (main_model cwd readResult parse).exitSuccess = false ∧
        (main_model cwd readResult parse).output =
          report_header v :: (validate_json v).map (fun m => "    " ++ m)) := by
  cases readResult with
  | error u =>
    refine ⟨?_, ?_, ?_⟩
    · simp [main_model]
    · intro h
      simp [main_model] at h
    · intro data v hread
      cases hread
  | ok data =>
    cases hp : parse data with
    | error e =>
      refine ⟨?_, ?_, ?_⟩
      · simp only [main_model, hp]
        constructor
        · intro h
          cases h
        · rintro ⟨data', v', hd, hp', -⟩
          obtain rfl : data' = data := (Except.ok.injEq .. ▸ hd.symm)
          rw [hp] at hp'
          cases hp'
      · intro h
        simp only [main_model, hp] at h
        cases h
      · rintro data' v' hd hp' -
        obtain rfl : data' = data := (Except.ok.injEq .. ▸ hd.symm)
        rw [hp] at hp'
        cases hp'
    | ok v =>
      by_cases hval : validate_json v = []
      · refine ⟨?_, ?_, ?_⟩
        · simp only [main_model, hp, hval]
          simp only [List.length_nil, gt_iff_lt, lt_self_iff_false, if_false]
          constructor
          · intro _
            exact ⟨data, v, rfl, hp, hval⟩
          · intro _
            trivial
        · intro _
          simp only [main_model, hp, hval]
          simp only [List.length_nil, gt_iff_lt, lt_self_iff_false, if_false]
        · rintro data' v' hd hp' hval'
          obtain rfl : data' = data := (Except.ok.injEq .. ▸ hd.symm)
          rw [hp] at hp'
          obtain rfl : v' = v := (Except.ok.injEq .. ▸ hp'.symm)
          exact absurd hval hval'
      · have hlen : (validate_json v).length > 0 := by
          cases hv : validate_json v with
          | nil => exact absurd hv hval
          | cons a l => simp
        refine ⟨?_, ?_, ?_⟩
        · simp only [main_model, hp, if_pos hlen]
          constructor
          · intro h
            cases h
          · rintro ⟨data', v', hd, hp', hval'⟩
            obtain rfl : data' = data := (Except.ok.injEq .. ▸ hd.symm)
            rw [hp] at hp'
            obtain rfl : v' = v := (Except.ok.injEq .. ▸ hp'.symm)
            exact absurd hval' hval
        · intro h
          simp only [main_model, hp, if_pos hlen] at h
          cases h
        · rintro data' v' hd hp' -
          obtain rfl : data' = data := (Except.ok.injEq .. ▸ hd.symm)
          rw [hp] at hp'
          obtain rfl : v' = v := (Except.ok.injEq .. ▸ hp'.symm)
          constructor
          · simp only [main_model, hp, if_pos hlen]
          · simp only [main_model, hp, if_pos hlen]

/-- C5 witness: with a readable file parsing to `{}` the process succeeds
and prints nothing; with a file parsing to a document holding one
violating entry it fails and prints the header (here carrying the name
`demo`) and the indented key. -/
theorem C5_process_contract_witness :
    ((main_model "." (Except.ok "emptydoc")
        (fun _ => Except.ok (Value.obj []))).exitSuccess = true
      ∧ (main_model "." (Except.ok "emptydoc")
        (fun _ => Except.ok (Value.obj []))).output = [])
    ∧ ((main_model "." (Except.ok "lock")
        (fun _ => Except.ok (Value.obj [("name", Value.str "demo"), ("packages",
          Value.obj [("node_modules/foo", Value.obj [])])]))).exitSuccess = false
      ∧ (main_model "." (Except.ok "lock")
        (fun _ => Except.ok (Value.obj [("name", Value.str "demo"), ("packages",
          Value.obj [("node_modules/foo", Value.obj [])])]))).output =
        ["[ERROR] [demo] package-lock.json is missing the following resolved/integrity fields:",
          "    node_modules/foo"]) := by
  constructor
  · have h := C5_process_contract "." (Except.ok "emptydoc") (fun _ => Except.ok (Value.obj []))
    have hs := h.1.mpr ⟨"emptydoc", Value.obj [], rfl, rfl, by decide⟩
    exact ⟨hs, h.2.1 hs⟩
  · have h := C5_process_contract "." (Except.ok "lock")
      (fun _ => Except.ok (Value.obj [("name", Value.str "demo"), ("packages",
        Value.obj [("node_modules/foo", Value.obj [])])]))
    have hf := h.2.2 "lock"
      (Value.obj [("name", Value.str "demo"), ("packages",
        Value.obj [("node_modules/foo", Value.obj [])])])
      rfl rfl (by decide)
    refine ⟨hf.1, ?_⟩
    rw [hf.2]
    rfl
